import Mathlib

/-!
Shallow embedding of the client-side behavior layer of the portfolio site
(`assets/js/main.js`): the Filter/Sort Engine (`initProjectFilters`) and the
Accessible Modal Manager (`initModals`), together with proofs of the
specification's testable properties.
-/

namespace Portfolio

/-! ## JavaScript string primitives

The engine manipulates DOM strings with `trim`, `toLowerCase`, `includes`,
`split(",")` and `Number(...)`.  We embed these over `List Char`.
-/

/-- `String.prototype.trim`: drop whitespace from both ends of a character list. -/
def trimList (l : List Char) : List Char :=
  ((l.dropWhile Char.isWhitespace).reverse.dropWhile Char.isWhitespace).reverse

/-- `String.prototype.trim` on strings. -/
def jsTrim (s : String) : String :=
  ⟨trimList s.data⟩

/-- `String.prototype.toLowerCase` (ASCII case fold, as used by the site's data). -/
def jsToLower (s : String) : String :=
  ⟨s.data.map Char.toLower⟩

/-- Does `l` start with `p`? (helper for substring containment). -/
def listStarts : List Char → List Char → Bool
  | _, [] => true
  | [], _ :: _ => false
  | a :: as, b :: bs => a == b && listStarts as bs

/-- Does `hay` contain `sub` as a contiguous run? (helper for `includes`). -/
def listHasSub : List Char → List Char → Bool
  | [], sub => sub.isEmpty
  | h :: t, sub => listStarts (h :: t) sub || listHasSub t sub

/-- `String.prototype.includes`. -/
def jsIncludes (hay needle : String) : Bool :=
  listHasSub hay.data needle.data

/-- `String.prototype.split(",")`: split a character list at every comma. -/
def splitOnComma : List Char → List (List Char)
  | [] => [[]]
  | c :: rest =>
    let r := splitOnComma rest
    if c == ',' then [] :: r
    else
      match r with
      | [] => [[c]]
      | h :: t => (c :: h) :: t

/-- `String.prototype.split(",")` on strings. -/
def jsSplitCommas (s : String) : List String :=
  (splitOnComma s.data).map (fun l => String.mk l)

/-- Parse an unsigned run of decimal digits; `none` when empty or non-digit. -/
def parseDigits (cs : List Char) : Option Nat :=
  if cs.isEmpty then none
  else if cs.all Char.isDigit then
    some (cs.foldl (fun n c => n * 10 + (c.toNat - 48)) 0)
  else none

/-- `Number(s)` restricted to integer literals: surrounding whitespace is
ignored, the empty string is `0`, an optional sign is followed by decimal
digits; every other shape (including non-integer numerals) is treated as
not-a-finite-number and returns `none`.  The site's `data_year`,
`data_impact` and `data_technical` attributes are integer-valued, which is
the fragment the engine exercises. -/
def jsNumOfString (s : String) : Option Int :=
  match trimList s.data with
  | [] => some 0
  | '-' :: rest => (parseDigits rest).map (fun n => -(n : Int))
  | '+' :: rest => (parseDigits rest).map (fun n => (n : Int))
  | l => (parseDigits l).map (fun n => (n : Int))

/-- JavaScript `a || d` on strings: the empty string is falsy, a missing
attribute (`getAttribute` returning `null`) is falsy. -/
def orDefault (o : Option String) (d : String) : String :=
  match o with
  | some s => if s == "" then d else s
  | none => d

/-! ## The Item Catalog

A card is a snapshot of one `[data_project_card]` element: its visible text
and its optional data attributes, plus an identity (`id`) standing for the
DOM node reference. -/

structure Card where
  id : Nat
  textContent : String
  categoryAttr : Option String
  yearAttr : Option String
  skillsAttr : Option String
  impactAttr : Option String
  technicalAttr : Option String
deriving DecidableEq

/-- `readCardText`: the card's searchable text, case-folded. -/
def readCardText (c : Card) : String :=
  jsToLower c.textContent

/-- `getCardCategory`: `card.getAttribute("data_category") || "all"`. -/
def getCardCategory (c : Card) : String :=
  orDefault c.categoryAttr "all"

/-- `getCardYear`: `card.getAttribute("data_year") || "all"`. -/
def getCardYear (c : Card) : String :=
  orDefault c.yearAttr "all"

/-- `getCardSkills`: split `data_skills` on commas, trim and lower each part,
drop empty parts. -/
def getCardSkills (c : Card) : List String :=
  ((jsSplitCommas (orDefault c.skillsAttr "")).map
    (fun s => jsToLower (jsTrim s))).filter (fun s => s != "")

/-- `scoreImpact`: `data_impact` parsed as a number when present and finite,
otherwise `0`. -/
def scoreImpact (c : Card) : Int :=
  match c.impactAttr with
  | none => 0
  | some raw => if raw == "" then 0 else (jsNumOfString raw).getD 0

/-- `scoreTechnical`: `data_technical` parsed as a number when present and
finite, otherwise `0`. -/
def scoreTechnical (c : Card) : Int :=
  match c.technicalAttr with
  | none => 0
  | some raw => if raw == "" then 0 else (jsNumOfString raw).getD 0

/-! ## Filter State and predicates -/

/-- The mutable Filter State read by every recompute: the search box value,
the two select values, and the set of toggled skill chips (membership only). -/
structure FilterState where
  query : String
  category : String
  year : String
  selectedSkills : List String

/-- `matchesFilters`: the source's early-return chain — text, category, year
and skills checks in order, failing fast. -/
def matchesFilters (st : FilterState) (c : Card) : Bool :=
  let q := jsToLower (jsTrim st.query)
  if q != "" && !(jsIncludes (readCardText c) q) then false
  else if st.category != "all" && getCardCategory c != st.category then false
  else if st.year != "all" && getCardYear c != st.year then false
  else if !st.selectedSkills.isEmpty &&
      !(st.selectedSkills.all (fun s => (getCardSkills c).contains s)) then false
  else true

/-- §4.1 text predicate: empty (trimmed) query, or case-insensitive
substring of the card's searchable text. -/
def textPredB (st : FilterState) (c : Card) : Bool :=
  jsToLower (jsTrim st.query) == "" ||
    jsIncludes (readCardText c) (jsToLower (jsTrim st.query))

/-- §4.1 category predicate: `"all"` selected, or exact string equality. -/
def catPredB (st : FilterState) (c : Card) : Bool :=
  st.category == "all" || getCardCategory c == st.category

/-- §4.1 year predicate: `"all"` selected, or exact string equality. -/
def yearPredB (st : FilterState) (c : Card) : Bool :=
  st.year == "all" || getCardYear c == st.year

/-- §4.1 skill predicate: no skill selected, or every selected skill present
on the card. -/
def skillPredB (st : FilterState) (c : Card) : Bool :=
  st.selectedSkills.isEmpty ||
    st.selectedSkills.all (fun s => (getCardSkills c).contains s)

/-! ## Sorting comparators

`Array.prototype.sort` with a consistent comparator is a stable sort
(ES2019); we embed it as `List.mergeSort` with the corresponding
`le` relation (`le a b` ↔ the comparator does not require `b` before `a`).
-/

/-- `recent` comparator as a `le`: numeric years descending, numeric before
non-numeric, non-numeric pairs tied. -/
def recentLe (a b : Card) : Bool :=
  match jsNumOfString (getCardYear a), jsNumOfString (getCardYear b) with
  | some ay, some by' => decide (by' ≤ ay)
  | some _, none => true
  | none, some _ => false
  | none, none => true

/-- `impact` comparator as a `le`: descending `scoreImpact`. -/
def impactLe (a b : Card) : Bool :=
  decide (scoreImpact b ≤ scoreImpact a)

/-- `technical` comparator as a `le`: descending `scoreTechnical`. -/
def technicalLe (a b : Card) : Bool :=
  decide (scoreTechnical b ≤ scoreTechnical a)

/-- The `apply` recompute: filter the init-captured card array, sort the
survivors by the selected mode, report the ordered visible sequence and the
empty-state flag. -/
def applyEngine (st : FilterState) (mode : String) (cards : List Card) :
    List Card × Bool :=
  let visible := cards.filter (matchesFilters st)
  let sorted :=
    if mode == "impact" then visible.mergeSort impactLe
    else if mode == "technical" then visible.mergeSort technicalLe
    else visible.mergeSort recentLe
  (sorted, visible.isEmpty)

/-- The whole recompute as a transformer of the grid's child order: hidden
cards keep their positions, each visible card is re-appended in sorted order.
Returns the new child order, the visible sequence, and the empty flag. -/
def applyFull (st : FilterState) (mode : String) (cards dom : List Card) :
    List Card × List Card × Bool :=
  let res := applyEngine st mode cards
  (dom.filter (fun c => !(res.1.contains c)) ++ res.1, res.1, res.2)

/-! ## Accessible Modal Manager

Observable state of the single supported modal surface plus the global
document state it touches: the focused element (`document.activeElement`,
as a node identity), the saved `lastFocus` trigger reference, the modal's
`is_open` class, its `aria-hidden` attribute, and the body scroll lock
(`document.body.style.overflow === "hidden"`). -/

structure DomState where
  activeElement : Nat
  lastFocus : Option Nat
  modalOpen : Bool
  ariaHidden : Bool
  overflowHidden : Bool
deriving DecidableEq

/-- `openModal`: record the currently focused element in `lastFocus`, show
the modal, lock background scroll, and move focus to the first resolved
focusable element (no move when the set is empty).  `focusable` is the
Focusable-Set Resolver's result for this open, in document order. -/
def openModal (focusable : List Nat) (st : DomState) : DomState :=
  { lastFocus := some st.activeElement
    modalOpen := true
    ariaHidden := false
    overflowHidden := true
    activeElement :=
      match focusable with
      | [] => st.activeElement
      | f :: _ => f }

/-- `closeModal`: hide the modal, unlock background scroll, refocus the saved
trigger when it is still a focus-receiving element (`typeof .focus ===
"function"`, given as the oracle `hasFocusFn`), and discard the saved
reference. -/
def closeModal (hasFocusFn : Nat → Bool) (st : DomState) : DomState :=
  { modalOpen := false
    ariaHidden := true
    overflowHidden := false
    activeElement :=
      match st.lastFocus with
      | some t => if hasFocusFn t then t else st.activeElement
      | none => st.activeElement
    lastFocus := none }

/-- The page's start state: modal closed and not yet opened, no saved
trigger, scroll unlocked. -/
def initState : DomState :=
  { activeElement := 0
    lastFocus := none
    modalOpen := false
    ariaHidden := true
    overflowHidden := false }

/-- States the manager can reach: opens, closes, and ordinary focus moves
elsewhere in the document. -/
inductive Reachable : DomState → Prop where
  | base : Reachable initState
  | openStep (l : List Nat) (st : DomState) :
      Reachable st → Reachable (openModal l st)
  | closeStep (f : Nat → Bool) (st : DomState) :
      Reachable st → Reachable (closeModal f st)
  | focusStep (x : Nat) (st : DomState) :
      Reachable st → Reachable { st with activeElement := x }

/-- The document-level `keydown` focus-trap handler: given the key, the
shift modifier, whether an open modal exists, its resolved focusable list
(document order) and the currently focused element, return `some e` when the
handler intervenes (calls `preventDefault` and focuses `e`), `none` when the
event passes through. -/
def focusTrapHandler (key : String) (shiftKey : Bool) (modalOpen : Bool)
    (focusable : List Nat) (active : Nat) : Option Nat :=
  if key != "Tab" then none
  else if !modalOpen then none
  else if focusable.isEmpty then none
  else
    let first := focusable.headD 0
    let last := focusable.getLastD 0
    if shiftKey && active == first then some last
    else if !shiftKey && active == last then some first
    else none

/-! ## Focusable-Set Resolver

An element snapshot carrying exactly what the resolver's CSS selector list
and `offsetParent` filter inspect. -/

structure Elem where
  id : Nat
  tag : String
  hasHref : Bool
  disabled : Bool
  tabindexAttr : Option String
  offsetParentNull : Bool
deriving DecidableEq

/-- The selector list of `getFocusable`: `a[href]`,
`button/input/select/textarea:not([disabled])`, and
`[tabindex]:not([tabindex='-1'])`. -/
def matchesSelector (e : Elem) : Bool :=
  (e.tag == "a" && e.hasHref) ||
  ((e.tag == "button" || e.tag == "input" || e.tag == "select" ||
      e.tag == "textarea") && !e.disabled) ||
  (match e.tabindexAttr with
   | some v => v != "-1"
   | none => false)

/-- `getFocusable`: query the container (given as its elements in document
order) with the selector list, keep elements whose `offsetParent` is not
`null`. -/
def getFocusable (root : List Elem) : List Elem :=
  (root.filter matchesSelector).filter (fun e => !e.offsetParentNull)

/-- Spec-side: "a link with a destination". -/
def isLinkWithDest (e : Elem) : Bool :=
  e.tag == "a" && e.hasHref

/-- Spec-side: "an enabled button/input/select/textarea". -/
def isEnabledFormControl (e : Elem) : Bool :=
  (e.tag == "button" || e.tag == "input" || e.tag == "select" ||
    e.tag == "textarea") && !e.disabled

/-- Spec-side: "currently visually rendered". -/
def isRendered (e : Elem) : Bool :=
  !e.offsetParentNull

/-- Spec-side: the element's explicit tab priority, its `tabindex` attribute
parsed as an integer. -/
def specTabPriority (e : Elem) : Option Int :=
  e.tabindexAttr.bind jsNumOfString

/-- Spec-side, original claim wording: "carries an explicit non-negative tab
priority". -/
def hasNonNegTab (e : Elem) : Bool :=
  match specTabPriority e with
  | some n => decide (0 ≤ n)
  | none => false

/-- The Focusable-Set Resolver contract as the original claim states it. -/
def specFocusableOriginal (e : Elem) : Bool :=
  (isLinkWithDest e || isEnabledFormControl e || hasNonNegTab e) && isRendered e

/-- Spec-side, amended wording: "carries an explicit tab priority whose
attribute value is not the literal string `-1`". -/
def hasTabAttrNotNegOne (e : Elem) : Bool :=
  match e.tabindexAttr with
  | some v => v != "-1"
  | none => false

/-- The Focusable-Set Resolver contract as amended. -/
def specFocusableAmended (e : Elem) : Bool :=
  (isLinkWithDest e || isEnabledFormControl e || hasTabAttrNotNegOne e) &&
    isRendered e

/-! ## Engine lemmas -/

theorem earlyReturn_eq_conj : ∀ (a b c1 c2 y1 y2 s1 s2 : Bool),
    (if !a && !b then false
     else if !c1 && !c2 then false
     else if !y1 && !y2 then false
     else if !s1 && !s2 then false
     else true) =
      ((a || b) && (c1 || c2) && (y1 || y2) && (s1 || s2)) := by
  decide

theorem matchesFilters_eq_preds (st : FilterState) (c : Card) :
    matchesFilters st c =
      (textPredB st c && catPredB st c && yearPredB st c && skillPredB st c) := by
  simp only [matchesFilters, textPredB, catPredB, yearPredB, skillPredB, bne]
  exact earlyReturn_eq_conj _ _ _ _ _ _ _ _

theorem applyEngine_fst_perm (st : FilterState) (mode : String)
    (cards : List Card) :
    ((applyEngine st mode cards).1).Perm (cards.filter (matchesFilters st)) := by
  unfold applyEngine
  by_cases h1 : (mode == "impact") = true
  · simp only [h1, if_true]
    exact List.mergeSort_perm _ _
  · by_cases h2 : (mode == "technical") = true
    · simp only [h1, h2, if_false, if_true]
      exact List.mergeSort_perm _ _
    · simp only [h1, h2, if_false]
      exact List.mergeSort_perm _ _

/-- C1: for every Filter State and Sort Mode, the visible sequence produced
by a recompute consists of exactly the catalog cards passing the conjunction
of the four §4.1 predicates (as a permutation of the filtered catalog, and
as a membership characterization), and the source's early-return evaluation
equals the conjunction taken in any other order, e.g. fully reversed. -/
theorem c1_recompute_is_predicate_conjunction (st : FilterState)
    (mode : String) (cards : List Card) :
    ((applyEngine st mode cards).1).Perm (cards.filter (fun c =>
        textPredB st c && catPredB st c && yearPredB st c && skillPredB st c)) ∧
    (∀ c : Card, c ∈ (applyEngine st mode cards).1 ↔
        c ∈ cards ∧ textPredB st c = true ∧ catPredB st c = true ∧
          yearPredB st c = true ∧ skillPredB st c = true) ∧
    (∀ c : Card, matchesFilters st c =
        (skillPredB st c && yearPredB st c && catPredB st c && textPredB st c)) := by
  have hfe : cards.filter (matchesFilters st) = cards.filter (fun c =>
      textPredB st c && catPredB st c && yearPredB st c && skillPredB st c) := by
    apply List.filter_congr
    intro c _
    exact matchesFilters_eq_preds st c
  refine ⟨?_, ?_, ?_⟩
  · have := applyEngine_fst_perm st mode cards
    rw [hfe] at this
    exact this
  · intro c
    have hmem : c ∈ (applyEngine st mode cards).1 ↔
        c ∈ cards.filter (matchesFilters st) :=
      (applyEngine_fst_perm st mode cards).mem_iff
    rw [hmem, List.mem_filter, matchesFilters_eq_preds]
    simp [Bool.and_eq_true, and_assoc]
  · intro c
    rw [matchesFilters_eq_preds]
    cases textPredB st c <;> cases catPredB st c <;> cases yearPredB st c <;>
      cases skillPredB st c <;> rfl

theorem filter_self_idem {α : Type} (p : α → Bool) (l : List α) :
    (l.filter p).filter p = l.filter p := by
  induction l with
  | nil => rfl
  | cons a t ih =>
    cases h : p a <;> simp [List.filter_cons, h, ih]

theorem selfFilter_nil (S : List Card) :
    S.filter (fun c => !(S.contains c)) = [] := by
  rw [List.filter_eq_nil_iff]
  intro c hc
  simp [List.contains, hc]

/-- C8: a recompute is idempotent — running `apply` a second time with no
state mutation in between returns the identical ordered visible sequence,
the same empty-state flag, and leaves the grid's child order unchanged. -/
theorem c8_recompute_idempotent (st : FilterState) (mode : String)
    (cards dom : List Card) :
    (applyFull st mode cards (applyFull st mode cards dom).1).2.1 =
        (applyFull st mode cards dom).2.1 ∧
    (applyFull st mode cards (applyFull st mode cards dom).1).2.2 =
        (applyFull st mode cards dom).2.2 ∧
    (applyFull st mode cards (applyFull st mode cards dom).1).1 =
        (applyFull st mode cards dom).1 := by
  refine ⟨rfl, rfl, ?_⟩
  unfold applyFull
  dsimp only
  rw [List.filter_append, selfFilter_nil, filter_self_idem]
  simp

/-! ## Sorting lemmas -/

theorem recentLe_trans (a b c : Card) :
    recentLe a b = true → recentLe b c = true → recentLe a c = true := by
  unfold recentLe
  cases jsNumOfString (getCardYear a) <;> cases jsNumOfString (getCardYear b) <;>
    cases jsNumOfString (getCardYear c) <;> simp <;> omega

theorem recentLe_total (a b : Card) :
    (recentLe a b || recentLe b a) = true := by
  unfold recentLe
  cases jsNumOfString (getCardYear a) <;> cases jsNumOfString (getCardYear b) <;>
    simp <;> omega

theorem impactLe_trans (a b c : Card) :
    impactLe a b = true → impactLe b c = true → impactLe a c = true := by
  unfold impactLe
  simp only [decide_eq_true_eq]
  omega

theorem impactLe_total (a b : Card) :
    (impactLe a b || impactLe b a) = true := by
  unfold impactLe
  simp only [Bool.or_eq_true, decide_eq_true_eq]
  omega

theorem technicalLe_trans (a b c : Card) :
    technicalLe a b = true → technicalLe b c = true → technicalLe a c = true := by
  unfold technicalLe
  simp only [decide_eq_true_eq]
  omega

theorem technicalLe_total (a b : Card) :
    (technicalLe a b || technicalLe b a) = true := by
  unfold technicalLe
  simp only [Bool.or_eq_true, decide_eq_true_eq]
  omega

/-- Stability of the embedded sort, phrased through filters: a class of
mutually tied elements keeps its relative order through `mergeSort`. -/
theorem mergeSort_filter_tied (le : Card → Card → Bool)
    (htrans : ∀ a b c, le a b = true → le b c = true → le a c = true)
    (htotal : ∀ a b, (le a b || le b a) = true)
    (p : Card → Bool)
    (hp : ∀ a b, p a = true → p b = true → le a b = true)
    (l : List Card) :
    (l.mergeSort le).filter p = l.filter p := by
  have hpw : (l.filter p).Pairwise (fun a b => le a b = true) := by
    apply List.pairwise_of_forall_mem_list
    intro a ha b hb
    exact hp a b (List.of_mem_filter ha) (List.of_mem_filter hb)
  have hsub : List.Sublist (l.filter p) (l.mergeSort le) :=
    List.sublist_mergeSort htrans htotal hpw (List.filter_sublist l)
  have hsub2 : List.Sublist (l.filter p) ((l.mergeSort le).filter p) := by
    have := hsub.filter p
    rwa [filter_self_idem] at this
  have hperm : ((l.mergeSort le).filter p).Perm (l.filter p) :=
    (List.mergeSort_perm l le).filter p
  exact (hsub2.eq_of_length hperm.length_eq.symm).symm

theorem recentLe_of_match (a b : Card) (h : recentLe a b = true) :
    (match jsNumOfString (getCardYear a), jsNumOfString (getCardYear b) with
      | some ya, some yb => yb ≤ ya
      | some _, none => True
      | none, some _ => False
      | none, none => True : Prop) := by
  unfold recentLe at h
  cases ha : jsNumOfString (getCardYear a) <;>
    cases hb : jsNumOfString (getCardYear b) <;>
    rw [ha, hb] at h <;> simp_all

/-- C5: under the default `recent` sort, every pair of the output respects
"numeric years descending, numeric before non-numeric, non-numeric tied";
moreover the non-numeric-year cards appear in exactly their pre-sort
(encounter) order. -/
theorem c5_recent_sort_order (st : FilterState) (cards : List Card) :
    ((applyEngine st "recent" cards).1).Pairwise (fun a b =>
      match jsNumOfString (getCardYear a), jsNumOfString (getCardYear b) with
      | some ya, some yb => yb ≤ ya
      | some _, none => True
      | none, some _ => False
      | none, none => True) ∧
    ((applyEngine st "recent" cards).1).filter
        (fun c => (jsNumOfString (getCardYear c)).isNone) =
      (cards.filter (matchesFilters st)).filter
        (fun c => (jsNumOfString (getCardYear c)).isNone) := by
  have hmode : (applyEngine st "recent" cards).1 =
      (cards.filter (matchesFilters st)).mergeSort recentLe := rfl
  constructor
  · rw [hmode]
    have hs := List.sorted_mergeSort recentLe_trans recentLe_total
      (cards.filter (matchesFilters st))
    exact hs.imp (fun h => recentLe_of_match _ _ h)
  · rw [hmode]
    apply mergeSort_filter_tied recentLe recentLe_trans recentLe_total
    intro a b ha hb
    unfold recentLe
    cases hya : jsNumOfString (getCardYear a) <;>
      cases hyb : jsNumOfString (getCardYear b) <;> simp_all

/-- C6: under the `impact` and `technical` sorts the output is ordered by
descending score, and every equal-score class appears in exactly its
pre-sort (encounter) order — the sort is stable. -/
theorem c6_impact_technical_stable (st : FilterState) (cards : List Card) :
    (((applyEngine st "impact" cards).1).Pairwise
        (fun a b => scoreImpact b ≤ scoreImpact a) ∧
      ∀ v : Int, ((applyEngine st "impact" cards).1).filter
          (fun c => scoreImpact c == v) =
        (cards.filter (matchesFilters st)).filter
          (fun c => scoreImpact c == v)) ∧
    (((applyEngine st "technical" cards).1).Pairwise
        (fun a b => scoreTechnical b ≤ scoreTechnical a) ∧
      ∀ v : Int, ((applyEngine st "technical" cards).1).filter
          (fun c => scoreTechnical c == v) =
        (cards.filter (matchesFilters st)).filter
          (fun c => scoreTechnical c == v)) := by
  have hmi : (applyEngine st "impact" cards).1 =
      (cards.filter (matchesFilters st)).mergeSort impactLe := rfl
  have hmt : (applyEngine st "technical" cards).1 =
      (cards.filter (matchesFilters st)).mergeSort technicalLe := rfl
  refine ⟨⟨?_, ?_⟩, ?_, ?_⟩
  · rw [hmi]
    have hs := List.sorted_mergeSort impactLe_trans impactLe_total
      (cards.filter (matchesFilters st))
    exact hs.imp (fun h => by simpa [impactLe] using h)
  · intro v
    rw [hmi]
    apply mergeSort_filter_tied impactLe impactLe_trans impactLe_total
    intro a b ha hb
    simp only [beq_iff_eq] at ha hb
    simp [impactLe, ha, hb]
  · rw [hmt]
    have hs := List.sorted_mergeSort technicalLe_trans technicalLe_total
      (cards.filter (matchesFilters st))
    exact hs.imp (fun h => by simpa [technicalLe] using h)
  · intro v
    rw [hmt]
    apply mergeSort_filter_tied technicalLe technicalLe_trans technicalLe_total
    intro a b ha hb
    simp only [beq_iff_eq] at ha hb
    simp [technicalLe, ha, hb]

/-! ## Year predicate: string equality only (C7) -/

/-- A card whose stored year string is numerically 2024 but textually
distinct from `"2024"`. -/
def yearCexCard : Card :=
  { id := 0
    textContent := ""
    categoryAttr := none
    yearAttr := some "02024"
    skillsAttr := none
    impactAttr := none
    technicalAttr := none }

/-- C7: the year predicate compares selected year and stored year by string
equality only — a matching card's year string is literally the selected
year; in particular the card whose year attribute is `"02024"` (numerically
equal to 2024) is rejected under selected year `"2024"` although both parse
to the same number, and passes once the selection is `"all"`. -/
theorem c7_year_predicate_string_equality :
    (∀ (st : FilterState) (c : Card), st.year ≠ "all" →
        matchesFilters st c = true → getCardYear c = st.year) ∧
    matchesFilters ⟨"", "all", "2024", []⟩ yearCexCard = false ∧
    jsNumOfString (getCardYear yearCexCard) = jsNumOfString "2024" ∧
    matchesFilters ⟨"", "all", "all", []⟩ yearCexCard = true := by
  refine ⟨?_, by decide, by decide, by decide⟩
  intro st c hall hm
  rw [matchesFilters_eq_preds] at hm
  simp only [Bool.and_eq_true] at hm
  have hy : yearPredB st c = true := hm.1.2
  unfold yearPredB at hy
  simp only [Bool.or_eq_true, beq_iff_eq] at hy
  rcases hy with h | h
  · exact absurd h hall
  · exact h

/-- Concrete run of the C7 theorem: a card whose year attribute is the
selected string `"2024"` matches, and its stored year is that string. -/
theorem c7_year_predicate_string_equality_witness :
    ("2024" : String) ≠ "all" ∧
    matchesFilters ⟨"", "all", "2024", []⟩
      { yearCexCard with yearAttr := some "2024" } = true ∧
    getCardYear { yearCexCard with yearAttr := some "2024" } = "2024" :=
  ⟨by decide, by decide,
    c7_year_predicate_string_equality.1 ⟨"", "all", "2024", []⟩
      { yearCexCard with yearAttr := some "2024" } (by decide) (by decide)⟩

/-! ## Query trimming lemmas (C10) -/

theorem dropWhile_head_not (p : Char → Bool) (l : List Char) :
    ∀ c, (l.dropWhile p).head? = some c → p c = false := by
  induction l with
  | nil => intro c h; simp at h
  | cons a t ih =>
    intro c h
    by_cases hp : p a = true
    · rw [List.dropWhile_cons_of_pos hp] at h
      exact ih c h
    · rw [List.dropWhile_cons_of_neg (by simpa using hp)] at h
      simp at h
      rw [← h]
      simpa using hp

theorem dropWhile_of_head_not (p : Char → Bool) (l : List Char)
    (h : ∀ c, l.head? = some c → p c = false) : l.dropWhile p = l := by
  cases l with
  | nil => rfl
  | cons a t =>
    rw [List.dropWhile_cons]
    simp [h a rfl]

theorem dropWhile_idem (p : Char → Bool) (l : List Char) :
    (l.dropWhile p).dropWhile p = l.dropWhile p :=
  dropWhile_of_head_not p _ (dropWhile_head_not p l)

theorem trimList_idem (l : List Char) : trimList (trimList l) = trimList l := by
  unfold trimList
  have hXdrop :
      ((l.dropWhile Char.isWhitespace).reverse.dropWhile
          Char.isWhitespace).dropWhile Char.isWhitespace =
        (l.dropWhile Char.isWhitespace).reverse.dropWhile Char.isWhitespace :=
    dropWhile_idem _ _
  have hhead : ∀ c,
      ((l.dropWhile Char.isWhitespace).reverse.dropWhile
          Char.isWhitespace).reverse.head? = some c →
        Char.isWhitespace c = false := by
    intro c hc
    rw [List.head?_reverse] at hc
    obtain ⟨t, ht⟩ := List.dropWhile_suffix
      (l := (l.dropWhile Char.isWhitespace).reverse) Char.isWhitespace
    have := congrArg List.getLast? ht
    rw [List.getLast?_append, hc, List.getLast?_reverse] at this
    exact dropWhile_head_not Char.isWhitespace l c this.symm
  rw [dropWhile_of_head_not _ _ hhead, List.reverse_reverse, hXdrop]

theorem trimList_all_ws (l : List Char)
    (h : ∀ c ∈ l, Char.isWhitespace c = true) : trimList l = [] := by
  unfold trimList
  have h1 : l.dropWhile Char.isWhitespace = [] := by
    induction l with
    | nil => rfl
    | cons a t ih =>
      rw [List.dropWhile_cons_of_pos (h a (List.mem_cons_self a t))]
      exact ih (fun c hc => h c (List.mem_cons_of_mem a hc))
  rw [h1]
  rfl

/-- The recompute only consumes the query through its trimmed form. -/
theorem matchesFilters_query_trim_congr (st : FilterState) (c : Card)
    (s : String) (hs : jsTrim s = jsTrim st.query) :
    matchesFilters { st with query := s } c = matchesFilters st c := by
  unfold matchesFilters
  rw [show ({ st with query := s } : FilterState).query = s from rfl, hs]

/-- C10: the text predicate runs on the trimmed query — every query (in
particular one with whitespace around non-whitespace content) filters
exactly like its trimmed form, and an all-whitespace query filters exactly
like the empty query. -/
theorem c10_query_trimming (st : FilterState) (c : Card) :
    matchesFilters { st with query := jsTrim st.query } c =
      matchesFilters st c ∧
    ((∀ ch ∈ st.query.data, Char.isWhitespace ch = true) →
      matchesFilters st c = matchesFilters { st with query := "" } c) := by
  constructor
  · apply matchesFilters_query_trim_congr
    unfold jsTrim
    apply congrArg
    exact trimList_idem st.query.data
  · intro hws
    have h1 : jsTrim "" = jsTrim st.query := by
      unfold jsTrim
      apply congrArg
      rw [trimList_all_ws st.query.data hws]
      rfl
    exact (matchesFilters_query_trim_congr st c "" h1).symm

/-- Concrete run of the C10 theorem: the query `"  cad "` (whitespace around
non-whitespace content) filters like its trimmed form `"cad"`, and the query
`"   "` (three spaces) behaves like the empty query, each on a sample
card. -/
theorem c10_query_trimming_witness :
    jsTrim "  cad " = "cad" ∧
    matchesFilters ⟨jsTrim "  cad ", "all", "all", []⟩ yearCexCard =
      matchesFilters ⟨"  cad ", "all", "all", []⟩ yearCexCard ∧
    (∀ ch ∈ ("   " : String).data, Char.isWhitespace ch = true) ∧
    matchesFilters ⟨"   ", "all", "all", []⟩ yearCexCard =
      matchesFilters ⟨"", "all", "all", []⟩ yearCexCard :=
  ⟨by decide,
    (c10_query_trimming ⟨"  cad ", "all", "all", []⟩ yearCexCard).1,
    by decide,
    (c10_query_trimming ⟨"   ", "all", "all", []⟩ yearCexCard).2 (by decide)⟩

/-! ## Modal manager theorems -/

/-- C2: while a modal is open with a non-empty focusable sequence, Tab on
the last element wraps focus to the first, Shift+Tab on the first wraps to
the last; any non-Tab key, and Tab on a strictly interior element, passes
through untouched. -/
theorem c2_focus_trap_cycle (l : List Nat) (hl : l ≠ []) :
    focusTrapHandler "Tab" false true l (l.getLastD 0) = some (l.headD 0) ∧
    focusTrapHandler "Tab" true true l (l.headD 0) = some (l.getLastD 0) ∧
    (∀ (k : String) (sh mo : Bool) (a : Nat), k ≠ "Tab" →
        focusTrapHandler k sh mo l a = none) ∧
    (∀ (sh : Bool) (a : Nat), a ∈ l → a ≠ l.headD 0 → a ≠ l.getLastD 0 →
        focusTrapHandler "Tab" sh true l a = none) := by
  refine ⟨?_, ?_, ?_, ?_⟩
  · simp [focusTrapHandler, List.isEmpty_iff, hl]
  · simp [focusTrapHandler, List.isEmpty_iff, hl]
  · intro k sh mo a hk
    simp [focusTrapHandler, bne_iff_ne, hk]
  · intro sh a _ h1 h2
    rw [List.headD_eq_head?_getD] at h1
    rw [List.getLastD_eq_getLast?] at h2
    simp [focusTrapHandler, List.isEmpty_iff, hl, h1, h2]

/-- Concrete run of the C2 theorem on the focusable sequence `[10,20,30]`. -/
theorem c2_focus_trap_cycle_witness :
    ([10, 20, 30] : List Nat) ≠ [] ∧
    focusTrapHandler "Tab" false true [10, 20, 30] 30 = some 10 ∧
    focusTrapHandler "Tab" true true [10, 20, 30] 10 = some 30 ∧
    focusTrapHandler "Tab" false true [10, 20, 30] 20 = none :=
  ⟨by decide,
    (c2_focus_trap_cycle [10, 20, 30] (by decide)).1,
    (c2_focus_trap_cycle [10, 20, 30] (by decide)).2.1,
    (c2_focus_trap_cycle [10, 20, 30] (by decide)).2.2.2 false 20
      (by decide) (by decide) (by decide)⟩

/-- C3: opening a modal while the trigger holds focus, then closing it with
no intervening focus change, puts focus back on the trigger and discards the
recorded reference — a later close finds no saved trigger and leaves focus
where it is. -/
theorem c3_focus_restoration (st : DomState) (l : List Nat) (f : Nat → Bool)
    (hf : f st.activeElement = true) :
    (closeModal f (openModal l st)).activeElement = st.activeElement ∧
    (closeModal f (openModal l st)).lastFocus = none ∧
    (closeModal f (closeModal f (openModal l st))).activeElement =
      (closeModal f (openModal l st)).activeElement := by
  refine ⟨?_, rfl, rfl⟩
  unfold closeModal openModal
  simp [hf]

/-- Concrete run of the C3 theorem from the page's start state. -/
theorem c3_focus_restoration_witness :
    (fun _ : Nat => true) initState.activeElement = true ∧
    (closeModal (fun _ => true) (openModal [5] initState)).activeElement =
      initState.activeElement :=
  ⟨rfl, (c3_focus_restoration initState [5] (fun _ => true) rfl).1⟩

/-- In every reachable state where the modal is closed, there is no saved
trigger, the modal is hidden from assistive technology, and background
scroll is not suspended. -/
theorem reachable_closed_inv : ∀ st : DomState, Reachable st →
    st.modalOpen = false →
    st.lastFocus = none ∧ st.ariaHidden = true ∧ st.overflowHidden = false := by
  intro st h
  induction h with
  | base => intro _; exact ⟨rfl, rfl, rfl⟩
  | openStep l s hr ih => intro hc; simp [openModal] at hc
  | closeStep f s hr ih => intro _; exact ⟨rfl, rfl, rfl⟩
  | focusStep x s hr ih => intro hc; exact ih hc

/-- C9: `close` on a modal that is already Closed is a no-op — in every
reachable closed state the whole observable state (visibility flags, scroll
suspension, focus, saved trigger) is unchanged by another close. -/
theorem c9_close_on_closed_noop (st : DomState) (f : Nat → Bool)
    (h : Reachable st) (hc : st.modalOpen = false) :
    closeModal f st = st := by
  obtain ⟨h1, h2, h3⟩ := reachable_closed_inv st h hc
  cases st with
  | mk a lf mo ar ov =>
    dsimp only at h1 h2 h3 hc
    subst h1; subst h2; subst h3; subst hc
    rfl

/-- Concrete run of the C9 theorem: closing from the start state changes
nothing. -/
theorem c9_close_on_closed_noop_witness :
    initState.modalOpen = false ∧
    closeModal (fun _ => true) initState = initState :=
  ⟨rfl, c9_close_on_closed_noop initState (fun _ => true) Reachable.base rfl⟩

/-! ## Focusable-Set Resolver theorems (C4) -/

/-- The selector list, factored into the spec's three clauses. -/
theorem matchesSelector_eq (e : Elem) :
    matchesSelector e =
      (isLinkWithDest e || isEnabledFormControl e || hasTabAttrNotNegOne e) :=
  rfl

/-- A non-focusable wrapper element carrying `tabindex="-2"`: a negative
tab priority that is not the literal `-1`. -/
def divNeg : Elem :=
  { id := 0
    tag := "div"
    hasHref := false
    disabled := false
    tabindexAttr := some "-2"
    offsetParentNull := false }

/-- C4 counterexample: the resolver's output on `[divNeg]` differs from the
claimed contract — the element's explicit tab priority is the negative
number `-2`, the original contract therefore excludes it, yet `getFocusable`
returns it (the selector only excludes the literal attribute text `-1`). -/
theorem c4_resolver_counterexample :
    getFocusable [divNeg] ≠ [divNeg].filter specFocusableOriginal ∧
    getFocusable [divNeg] = [divNeg] ∧
    specTabPriority divNeg = some (-2) ∧
    hasNonNegTab divNeg = false := by
  refine ⟨?_, by decide, by decide, by decide⟩
  decide

/-- C4 amended: the resolver returns, in document order, exactly the
elements of the container that are links with a destination, enabled
button/input/select/textarea controls, or carry an explicit tab priority
whose attribute value is not the literal string `-1` (negative priorities
other than `-1` are included), restricted to currently rendered elements. -/
theorem c4_resolver_contract_amended (root : List Elem) :
    getFocusable root = root.filter specFocusableAmended := by
  unfold getFocusable
  rw [List.filter_filter]
  apply List.filter_congr
  intro e _
  rw [show specFocusableAmended e =
      (matchesSelector e && isRendered e) from rfl]
  unfold isRendered
  exact Bool.and_comm _ _

end Portfolio
